import Mathlib

/-!
Verification of the pause-detection core of the Confidence Coach service
(`app.py` and `backend/app.py`).

Times are modelled as exact rationals.  `pyRoundInt q` is Python's
`round(q)` (nearest integer, ties to even) applied to the exact value `q`,
and `pyRound q n` is Python's `round(q, n)`.  External collaborators
(Whisper, the chat APIs, ffmpeg) are parameters of the corresponding
definitions; calls that may raise are modelled with `Except`.  The pool of
temporary files is a list of names threaded through the request handlers.
-/

/-- Python `round(q)`: nearest integer, ties to even. -/
def pyRoundInt (q : ℚ) : ℤ :=
  let f : ℤ := ⌊q⌋
  let r : ℚ := q - f
  if r < 1/2 then f
  else if 1/2 < r then f + 1
  else if f % 2 = 0 then f else f + 1

/-- Python `round(q, n)`: nearest multiple of `10 ^ (-n)`, ties to even. -/
def pyRound (q : ℚ) (n : ℕ) : ℚ :=
  (pyRoundInt (q * 10 ^ n) : ℚ) / 10 ^ n

/-- Python `len(s)`: the number of characters. -/
def py_len (s : String) : ℕ := s.data.length

/-- Python `s.strip()`: whitespace removed from both ends. -/
def py_strip (s : String) : String :=
  String.mk (((s.data.dropWhile Char.isWhitespace).reverse.dropWhile
    Char.isWhitespace).reverse)

/-- Helper for `py_split_words`: one pass over the characters with the
current word accumulated in reverse. -/
def py_split_aux : List Char → List Char → List String
  | [], acc => if acc = [] then [] else [String.mk acc.reverse]
  | c :: cs, acc =>
    if c.isWhitespace then
      if acc = [] then py_split_aux cs []
      else String.mk acc.reverse :: py_split_aux cs []
    else py_split_aux cs (c :: acc)

/-- Python `s.split()`: maximal runs of non-whitespace characters. -/
def py_split_words (s : String) : List String := py_split_aux s.data []

/-- Python `sep.join(l)`. -/
def py_join (sep : String) : List String → String
  | [] => ""
  | [x] => x
  | x :: y :: xs => x ++ sep ++ py_join sep (y :: xs)

/-- A transcribed word or segment with its timing: the dictionaries
`{"word": ..., "start": ..., "end": ...}` of `app.py` and the segments
`{"text": ..., "start": ..., "end": ...}` of `backend/app.py`.  The single
string field is called `text`; `app.py` reads it as `"word"`. -/
structure TimedUnit where
  text : String
  start : ℚ
  end_ : ℚ
deriving DecidableEq, Repr

instance : Inhabited TimedUnit := ⟨⟨"", 0, 0⟩⟩

/-- `app.py` `get_context_before(words, index, seconds=15)`:
empty for index 0, otherwise the words among `words[:index]` whose start is
at least `words[index].start - seconds`, joined by single spaces. -/
def get_context_before (words : List TimedUnit) (index : ℕ) (seconds : ℚ) : String :=
  if index = 0 then ""
  else
    let pause_time := (words.getD index default).start
    let cutoff := pause_time - seconds
    py_join " "
      (((words.take index).filter (fun w => cutoff ≤ w.start)).map (fun w => w.text))

/-- The gap `words[i]["start"] - words[i-1]["end"]` both detectors compare
against the threshold. -/
def gap_at (words : List TimedUnit) (i : ℕ) : ℚ :=
  (words.getD i default).start - (words.getD (i - 1) default).end_

/-- The pause record of `app.py` `detect_pauses`. -/
structure Pause where
  pause_start : ℚ
  pause_end : ℚ
  duration : ℚ
  word_before : String
  word_after : String
  context_before : String
deriving DecidableEq, Repr

/-- The record `app.py` `detect_pauses` appends for a qualifying index `i`. -/
def mk_pause (words : List TimedUnit) (i : ℕ) : Pause :=
  { pause_start := pyRound (words.getD (i - 1) default).end_ 2
    pause_end := pyRound (words.getD i default).start 2
    duration := pyRound (gap_at words i) 2
    word_before := (words.getD (i - 1) default).text
    word_after := (words.getD i default).text
    context_before := get_context_before words i 15 }

/-- `app.py` `detect_pauses(words, threshold=3.0)`: `for i in range(1, len(words))`,
append a record when `gap >= threshold`. -/
def detect_pauses (words : List TimedUnit) (threshold : ℚ) : List Pause :=
  ((List.range words.length).drop 1).filterMap (fun i =>
    if threshold ≤ gap_at words i then some (mk_pause words i) else none)

/-- `backend/app.py` `get_context_before(segments, pause_time, seconds=15)`:
segments with `start >= cutoff` and `end <= pause_time`, texts stripped,
joined by single spaces. -/
def backend_get_context_before (segments : List TimedUnit) (pause_time : ℚ)
    (seconds : ℚ) : String :=
  let cutoff := pause_time - seconds
  py_join " "
    ((segments.filter (fun seg => cutoff ≤ seg.start ∧ seg.end_ ≤ pause_time)).map
      (fun seg => py_strip seg.text))

/-- The pause record of `backend/app.py` `detect_pauses`. -/
structure BackendPause where
  pause_start : ℚ
  pause_end : ℚ
  duration : ℚ
  context_before : String
deriving DecidableEq, Repr

/-- The record `backend/app.py` `detect_pauses` appends for a qualifying index `i`. -/
def mk_backend_pause (segments : List TimedUnit) (i : ℕ) : BackendPause :=
  { pause_start := (segments.getD (i - 1) default).end_
    pause_end := (segments.getD i default).start
    duration := pyRound (gap_at segments i) 2
    context_before :=
      backend_get_context_before segments (segments.getD i default).start 15 }

/-- `backend/app.py` `detect_pauses(segments, threshold=3.0)`: returns `[]`
for fewer than two segments, else the same scan as `app.py`. -/
def backend_detect_pauses (segments : List TimedUnit) (threshold : ℚ) : List BackendPause :=
  if segments.length < 2 then []
  else
    ((List.range segments.length).drop 1).filterMap (fun i =>
      if threshold ≤ gap_at segments i then some (mk_backend_pause segments i) else none)

/-- The metrics dictionary of `app.py` `calculate_metrics`. -/
structure Metrics where
  word_count : ℕ
  pause_count : ℕ
  total_pause_seconds : ℚ
  prompts_generated : ℕ
  fluency_score : ℤ
deriving DecidableEq, Repr

/-- `app.py` `calculate_metrics(transcript, pauses, prompts_generated)`. -/
def calculate_metrics (transcript : String) (pauses : List Pause)
    (prompts_generated : ℕ) : Metrics :=
  let word_count := (py_split_words transcript).length
  let pause_count := pauses.length
  let total_pause_time := (pauses.map (fun p => p.duration)).sum
  let fluency : ℚ :=
    if word_count > 0 then max 0 (100 - total_pause_time * 5 - (pause_count : ℚ) * 10)
    else 0
  { word_count := word_count
    pause_count := pause_count
    total_pause_seconds := pyRound total_pause_time 1
    prompts_generated := prompts_generated
    fluency_score := pyRoundInt fluency }

/-- The fallback prompt of `app.py` (`generate_prompt` line 111 and `analyze`
line 232). -/
def fallback_prompt : String := "What's the main point you want to make?"

/-- The fallback prompt of `backend/app.py`. -/
def backend_fallback_prompt : String := "What's the main point you want to share?"

/-- Python `s.strip(c)` for a single character `c`. -/
def strip_char (c : Char) (s : String) : String :=
  String.mk (((s.data.dropWhile (fun x => x = c)).reverse.dropWhile (fun x => x = c)).reverse)

/-- Result of the prompt-generation step: the prompt string and whether the
external chat-completion call was made. -/
structure GenResult where
  prompt : String
  called_external : Bool
deriving DecidableEq, Repr

/-- `app.py` `generate_prompt(context, ...)`: fallback without an external
call when the context is falsy or strips to fewer than 10 characters,
otherwise the external call's text, stripped of whitespace and quotes.
`llm` is the external chat-completion call. -/
def generate_prompt (llm : String → String) (context : String) : GenResult :=
  if context = "" ∨ py_len (py_strip context) < 10 then
    { prompt := fallback_prompt, called_external := false }
  else
    { prompt := strip_char '"' (py_strip (llm context)), called_external := true }

/-- The per-pause prompt attachment of `app.py` `analyze` (lines 225-232):
`generate_prompt` when `context_before` is truthy, else the fixed fallback. -/
def attach_prompt (llm : String → String) (p : Pause) : GenResult :=
  if p.context_before ≠ "" then generate_prompt llm p.context_before
  else { prompt := fallback_prompt, called_external := false }

/-- The value `transcribe_audio` returns: transcript text and timed words. -/
structure Transcription where
  text : String
  words : List TimedUnit

/-- `app.py` `generate_prompt` with a fallible external call. -/
def generate_promptE (llm : String → Except String String) (context : String) :
    Except String String :=
  if context = "" ∨ py_len (py_strip context) < 10 then pure fallback_prompt
  else do
    let r ← llm context
    pure (strip_char '"' (py_strip r))

/-- `backend/app.py` `generate_prompt_with_claude` with a fallible external call. -/
def generate_claudeE (claude : String → Except String String) (context : String) :
    Except String String :=
  if context = "" ∨ py_len (py_strip context) < 10 then pure backend_fallback_prompt
  else do
    let r ← claude context
    pure (strip_char '"' (py_strip r))

/-- Observable outcome of an `/analyze` request: HTTP status, the `error`
field of the body, the temp-file pool after the handler returns, and how
many temp files the handler created. -/
structure AnalyzeResult where
  status : ℕ
  error : Option String
  files : List String
  created : ℕ
deriving DecidableEq, Repr

/-- `app.py` `/analyze`.  `fs0` is the temp-file pool before the request,
`fields` the multipart field names of the request, `nm` the temp-file name
the OS hands out, `transcribe` and `llm` the external calls (a raised
exception is `Except.error`, caught by the handler's `except` and turned
into a 500).  The `finally` block removes the temp file on every path. -/
def app_analyze (fs0 fields : List String) (nm : String)
    (transcribe : Except String Transcription)
    (llm : String → Except String String) : AnalyzeResult :=
  if "audio" ∉ fields then
    { status := 400, error := some "No audio file provided", files := fs0, created := 0 }
  else
    let fs1 := nm :: fs0
    let body : Except String Unit := do
      let tr ← transcribe
      let pauses := detect_pauses tr.words 3
      let _ ← pauses.mapM (fun p =>
        if p.context_before ≠ "" then generate_promptE llm p.context_before
        else pure fallback_prompt)
      pure ()
    let resp : ℕ × Option String :=
      match body with
      | .ok _ => (200, none)
      | .error e => (500, some e)
    { status := resp.1, error := resp.2,
      files := fs1.filter (fun x => x ≠ nm), created := 1 }

/-- `backend/app.py` `/analyze`.  `nm` is the uploaded `.webm` temp file,
`wav` the derived `.wav` path; `ffmpeg` is the external transcoder
(return code, and whether it created the wav file), `whisper` the local
transcription (text and segments), `claude` the external chat call.
The `finally` block removes both files when they exist. -/
def backend_analyze (fs0 fields : List String) (nm wav : String)
    (ffmpeg : ℤ × Bool)
    (whisper : Except String (String × List TimedUnit))
    (claude : String → Except String String) : AnalyzeResult :=
  if "video" ∉ fields then
    { status := 400, error := some "No video file provided", files := fs0, created := 0 }
  else
    let fs1 := nm :: fs0
    let fs2 := if ffmpeg.2 then wav :: fs1 else fs1
    let created := if ffmpeg.2 then 2 else 1
    let body : Except String (ℕ × Option String) :=
      if ffmpeg.1 ≠ 0 then
        pure (500, some "Failed to process audio. Make sure ffmpeg is installed.")
      else do
        let tr ← whisper
        let pauses := backend_detect_pauses tr.2 3
        let _ ← pauses.mapM (fun p =>
          if p.context_before ≠ "" then generate_claudeE claude p.context_before
          else pure backend_fallback_prompt)
        pure (200, none)
    let resp : ℕ × Option String :=
      match body with
      | .ok r => r
      | .error e => (500, some e)
    { status := resp.1, error := resp.2,
      files := (fs2.filter (fun x => x ≠ nm)).filter (fun x => x ≠ wav),
      created := created }

/-- Observable outcome of a `/quick-prompt` request. -/
structure QuickPromptResult where
  status : ℕ
  error : Option String
  prompt : Option String
  called_external : Bool
deriving DecidableEq, Repr

/-- `app.py` `/quick-prompt`: `context = data.get("context", "")`; a falsy
context is rejected with a 400 before `generate_prompt` is reached. -/
def quick_prompt (llm : String → String) (context_field : Option String) :
    QuickPromptResult :=
  let context := context_field.getD ""
  if context = "" then
    { status := 400, error := some "No context provided", prompt := none,
      called_external := false }
  else
    let g := generate_prompt llm context
    { status := 200, error := none, prompt := some g.prompt,
      called_external := g.called_external }

/-- The qualifying indices of the spec's pause contract: `i ≥ 1` with
`words[i].start - words[i-1].end ≥ threshold`, in input order. -/
def pauseIndices (words : List TimedUnit) (threshold : ℚ) : List ℕ :=
  ((List.range words.length).drop 1).filter (fun i => threshold ≤ gap_at words i)

/-- The context characterization of claim C3 / spec §4.2: the texts of
exactly the units whose start lies in `[words[i].start - window, words[i].start)`,
joined by single spaces in original order. -/
def context_spec (words : List TimedUnit) (i : ℕ) (window : ℚ) : String :=
  let s := (words.getD i default).start
  py_join " "
    ((words.filter (fun u => s - window ≤ u.start ∧ u.start < s)).map (fun u => u.text))

/-- The fluency score as claim C2 words it: the formula applied to
`totalPauseSeconds`, the duration sum already rounded to 1 decimal place. -/
def claimed_fluency (transcript : String) (pauses : List Pause) : ℤ :=
  let word_count := (py_split_words transcript).length
  let pause_count := pauses.length
  let totalPauseSeconds := pyRound ((pauses.map (fun p => p.duration)).sum) 1
  if word_count = 0 then 0
  else pyRoundInt (max 0 (100 - totalPauseSeconds * 5 - (pause_count : ℚ) * 10))

/-- The fluency score of the amended claim C2: the formula applied to the
unrounded duration sum, rounded to an integer at the end; rounding to one
decimal only affects the reported `total_pause_seconds`. -/
def amended_fluency (transcript : String) (pauses : List Pause) : ℤ :=
  let word_count := (py_split_words transcript).length
  let pause_count := pauses.length
  let total := (pauses.map (fun p => p.duration)).sum
  if word_count = 0 then 0
  else pyRoundInt (max 0 (100 - total * 5 - (pause_count : ℚ) * 10))

/-- The example units of spec §8: `[{start:0,end:2},{start:6,end:8},{start:8.5,end:10}]`. -/
def ex_units : List TimedUnit :=
  [⟨"a", 0, 2⟩, ⟨"b", 6, 8⟩, ⟨"c", 17/2, 10⟩]

/-- Two overlapping but start-ordered segments, used against claim C3. -/
def overlap_units : List TimedUnit :=
  [⟨" hi", 0, 5⟩, ⟨"yo", 4, 6⟩]

/-! ### Helper lemmas -/

lemma pyRoundInt_zero : pyRoundInt 0 = 0 := by norm_num [pyRoundInt]

lemma floor_le_pyRoundInt (q : ℚ) : ⌊q⌋ ≤ pyRoundInt q := by
  simp only [pyRoundInt]
  split_ifs <;> omega

lemma le_pyRoundInt_of_le {n : ℤ} {q : ℚ} (h : (n : ℚ) ≤ q) : n ≤ pyRoundInt q :=
  le_trans (Int.le_floor.mpr h) (floor_le_pyRoundInt q)

lemma pyRoundInt_le_of_le {q : ℚ} {n : ℤ} (h : q ≤ (n : ℚ)) : pyRoundInt q ≤ n := by
  have hf : ⌊q⌋ ≤ n := by
    have := Int.floor_le_floor h
    simpa using this
  simp only [pyRoundInt]
  split_ifs with h1 h2 h3
  · exact hf
  · have hq : (⌊q⌋ : ℚ) + 1/2 ≤ q := by
      have := Int.floor_le q
      linarith
    have : (⌊q⌋ : ℚ) < (n : ℚ) := by linarith
    have := Int.cast_lt.mp this
    omega
  · exact hf
  · have hr : (1:ℚ)/2 ≤ q - (⌊q⌋ : ℚ) := le_of_not_lt h1
    have : (⌊q⌋ : ℚ) < (n : ℚ) := by linarith
    have := Int.cast_lt.mp this
    omega

lemma le_pyRound_two {t q : ℚ} {k : ℤ} (hk : (k : ℚ) = t * 100) (h : t ≤ q) :
    t ≤ pyRound q 2 := by
  rw [pyRound]
  have h100 : ((10:ℚ)) ^ (2:ℕ) = 100 := by norm_num
  rw [h100]
  have h1 : (k : ℚ) ≤ q * 100 := by
    rw [hk]
    exact mul_le_mul_of_nonneg_right h (by norm_num)
  have h2 : k ≤ pyRoundInt (q * 100) := le_pyRoundInt_of_le h1
  have h3 : (k : ℚ) ≤ (pyRoundInt (q * 100) : ℚ) := by exact_mod_cast h2
  have ht : t = (k : ℚ) / 100 := by
    rw [hk]
    field_simp
  rw [ht]
  linarith

lemma filterMap_ite {α β : Type} (p : α → Prop) [DecidablePred p] (f : α → β)
    (l : List α) :
    l.filterMap (fun a => if p a then some (f a) else none) =
      (l.filter (fun a => decide (p a))).map f := by
  induction l with
  | nil => rfl
  | cons a t ih =>
    by_cases h : p a <;>
      simp [List.filterMap_cons, List.filter_cons, h, ih]

lemma filter_ne_of_not_mem {α : Type} [DecidableEq α] {l : List α} {a : α}
    (h : a ∉ l) : l.filter (fun x => x ≠ a) = l := by
  rw [List.filter_eq_self]
  intro b hb
  simp only [ne_eq, decide_eq_true_eq]
  intro he
  exact h (he ▸ hb)

lemma filter_ne_cons_head {α : Type} [DecidableEq α] (l : List α) (a : α) :
    (a :: l).filter (fun x => x ≠ a) = l.filter (fun x => x ≠ a) := by
  simp [List.filter_cons]

lemma filter_ne_cons_of_ne {α : Type} [DecidableEq α] (l : List α) {b a : α}
    (hne : b ≠ a) :
    (b :: l).filter (fun x => x ≠ a) = b :: l.filter (fun x => x ≠ a) := by
  simp [List.filter_cons, hne]

lemma range_drop_one_of_le_one {n : ℕ} (h : n ≤ 1) : (List.range n).drop 1 = [] := by
  interval_cases n <;> rfl

/-! ### Claim theorems -/

/-- C1: both pause detectors produce exactly one pause per adjacent pair
`(unit[i-1], unit[i])` whose gap `unit[i].start - unit[i-1].end` is at least
the threshold, in input order (they are the image of the qualifying index
list `pauseIndices`, which filters `[1, ..., len-1]` by the gap condition,
so pairs below the threshold — including negative gaps — contribute
nothing); an input of length 0 or 1 yields `[]`. -/
theorem claim_c1 (words : List TimedUnit) (threshold : ℚ) :
    detect_pauses words threshold =
        (pauseIndices words threshold).map (mk_pause words)
    ∧ backend_detect_pauses words threshold =
        (pauseIndices words threshold).map (mk_backend_pause words)
    ∧ (words.length ≤ 1 →
        detect_pauses words threshold = [] ∧
          backend_detect_pauses words threshold = []) := by
  have happ : detect_pauses words threshold =
      (pauseIndices words threshold).map (mk_pause words) := by
    rw [detect_pauses, pauseIndices, filterMap_ite]
  have hidx : words.length ≤ 1 → pauseIndices words threshold = [] := by
    intro h
    rw [pauseIndices, range_drop_one_of_le_one h]
    rfl
  have hback : backend_detect_pauses words threshold =
      (pauseIndices words threshold).map (mk_backend_pause words) := by
    rw [backend_detect_pauses]
    split_ifs with h
    · rw [hidx (by omega)]
      rfl
    · rw [pauseIndices, filterMap_ite]
  refine ⟨happ, hback, fun h => ?_⟩
  rw [happ, hback, hidx h]
  exact ⟨rfl, rfl⟩

/-- C1 witness: on the single-unit input `[⟨"a", 0, 2⟩]` both detectors
return the empty list. -/
theorem claim_c1_witness :
    detect_pauses [⟨"a", 0, 2⟩] 3 = [] ∧
      backend_detect_pauses [⟨"a", 0, 2⟩] 3 = [] :=
  (claim_c1 [⟨"a", 0, 2⟩] 3).2.2 (by norm_num)

/-- C8: the two pause detectors qualify exactly the same adjacent index
pairs (both are images of the shared `pauseIndices` list), so they return
the same number of pauses, and the `duration` fields (the gap rounded to 2
decimal places) agree pointwise, although the remaining record fields
differ. -/
theorem claim_c8 (words : List TimedUnit) (threshold : ℚ) :
    detect_pauses words threshold =
        (pauseIndices words threshold).map (mk_pause words)
    ∧ backend_detect_pauses words threshold =
        (pauseIndices words threshold).map (mk_backend_pause words)
    ∧ (detect_pauses words threshold).map (fun p => p.duration) =
        (backend_detect_pauses words threshold).map (fun p => p.duration)
    ∧ (detect_pauses words threshold).length =
        (backend_detect_pauses words threshold).length := by
  have happ : detect_pauses words threshold =
      (pauseIndices words threshold).map (mk_pause words) := by
    rw [detect_pauses, pauseIndices, filterMap_ite]
  have hback : backend_detect_pauses words threshold =
      (pauseIndices words threshold).map (mk_backend_pause words) := by
    rw [backend_detect_pauses]
    split_ifs with h
    · have hidx : pauseIndices words threshold = [] := by
        rw [pauseIndices, range_drop_one_of_le_one (by omega)]
        rfl
      rw [hidx]
      rfl
    · rw [pauseIndices, filterMap_ite]
  refine ⟨happ, hback, ?_, ?_⟩
  · rw [happ, hback, List.map_map, List.map_map]
    rfl
  · rw [happ, hback, List.length_map, List.length_map]

/-- C9: every pause either detector emits has its `duration` field (the gap
rounded to 2 decimal places) at least the threshold, provided the threshold
is itself a multiple of `1/100`, i.e. has at most 2 decimal places. -/
theorem claim_c9 (words : List TimedUnit) (threshold : ℚ) (k : ℤ)
    (hk : (k : ℚ) = threshold * 100) :
    (∀ p ∈ detect_pauses words threshold, threshold ≤ p.duration)
    ∧ (∀ p ∈ backend_detect_pauses words threshold, threshold ≤ p.duration) := by
  constructor
  · intro p hp
    rw [detect_pauses] at hp
    obtain ⟨i, _, hfi⟩ := List.mem_filterMap.mp hp
    by_cases hc : threshold ≤ gap_at words i
    · rw [if_pos hc] at hfi
      obtain rfl := Option.some.inj hfi
      exact le_pyRound_two hk hc
    · rw [if_neg hc] at hfi
      exact absurd hfi (by simp)
  · intro p hp
    rw [backend_detect_pauses] at hp
    by_cases hl : words.length < 2
    · rw [if_pos hl] at hp
      exact absurd hp (by simp)
    · rw [if_neg hl] at hp
      obtain ⟨i, _, hfi⟩ := List.mem_filterMap.mp hp
      by_cases hc : threshold ≤ gap_at words i
      · rw [if_pos hc] at hfi
        obtain rfl := Option.some.inj hfi
        exact le_pyRound_two hk hc
      · rw [if_neg hc] at hfi
        exact absurd hfi (by simp)

/-- C9 witness: on the spec's example units with threshold 3 (= 300/100),
the detected pause between units 0 and 1 has duration at least 3. -/
theorem claim_c9_witness :
    ((300 : ℤ) : ℚ) = 3 * 100
    ∧ mk_pause ex_units 1 ∈ detect_pauses ex_units 3
    ∧ (3 : ℚ) ≤ (mk_pause ex_units 1).duration := by
  have hmem : mk_pause ex_units 1 ∈ detect_pauses ex_units 3 := by
    have h : detect_pauses ex_units 3 = [mk_pause ex_units 1] := by
      norm_num [detect_pauses, ex_units, gap_at, List.range, List.range.loop,
        List.filterMap]
    rw [h]
    exact List.mem_singleton_self _
  exact ⟨by norm_num,
    hmem,
    (claim_c9 ex_units 3 300 (by norm_num)).1 (mk_pause ex_units 1) hmem⟩

/-- C2 counterexample: for transcript `"a"` and a single pause of duration
`0.14`, the code computes `round(100 - 0.14*5 - 10) = round(89.3) = 89`,
while the claim's formula on the rounded total (`round(0.14, 1) = 0.1`)
gives `round(100 - 0.1*5 - 10) = round(89.5) = 90` (ties to even). -/
theorem claim_c2_counterexample :
    (calculate_metrics "a" [⟨0, 0, 7/50, "", "", ""⟩] 1).fluency_score = 89
    ∧ claimed_fluency "a" [⟨0, 0, 7/50, "", "", ""⟩] = 90
    ∧ (89 : ℤ) ≠ 90 := by
  have h : (py_split_words "a").length = 1 := rfl
  refine ⟨?_, ?_, by norm_num⟩
  · norm_num [calculate_metrics, h, pyRoundInt]
  · norm_num [claimed_fluency, h, pyRound, pyRoundInt]

/-- C2 amended: `fluencyScore` is `max(0, 100 - S*5 - pauseCount*10)` rounded
to the nearest integer where `S` is the *unrounded* sum of the pause
durations; the rounding to 1 decimal place only produces the reported
`totalPauseSeconds` field; and a zero word count forces `fluencyScore = 0`. -/
theorem claim_c2_amended (transcript : String) (pauses : List Pause) (n : ℕ) :
    (calculate_metrics transcript pauses n).fluency_score =
        amended_fluency transcript pauses
    ∧ (calculate_metrics transcript pauses n).total_pause_seconds =
        pyRound ((pauses.map (fun p => p.duration)).sum) 1
    ∧ ((py_split_words transcript).length = 0 →
        (calculate_metrics transcript pauses n).fluency_score = 0) := by
  refine ⟨?_, rfl, ?_⟩
  · rw [calculate_metrics, amended_fluency]
    by_cases h : (py_split_words transcript).length = 0
    · simp [h, pyRoundInt_zero]
    · have hpos : 0 < (py_split_words transcript).length := Nat.pos_of_ne_zero h
      simp [h, hpos]
  · intro h
    rw [calculate_metrics]
    simp [h, pyRoundInt_zero]

/-- C2 amended witness: the empty transcript forces a fluency score of 0. -/
theorem claim_c2_witness :
    (py_split_words "").length = 0
    ∧ (calculate_metrics "" [] 0).fluency_score = 0 :=
  ⟨rfl, (claim_c2_amended "" [] 0).2.2 rfl⟩

/-- C7 counterexample: `calculate_metrics` quantified over arbitrary pause
lists can exceed 100: a pause of duration `-10` gives
`round(max(0, 100 + 50 - 10)) = 140`. -/
theorem claim_c7_counterexample :
    (calculate_metrics "a" [⟨0, 0, -10, "", "", ""⟩] 0).fluency_score = 140
    ∧ ¬((calculate_metrics "a" [⟨0, 0, -10, "", "", ""⟩] 0).fluency_score ≤ 100) := by
  have h : (py_split_words "a").length = 1 := rfl
  have h140 : (calculate_metrics "a" [⟨0, 0, -10, "", "", ""⟩] 0).fluency_score = 140 := by
    norm_num [calculate_metrics, h, pyRoundInt]
  exact ⟨h140, by rw [h140]; norm_num⟩

/-- C7 amended: whenever every pause duration is nonnegative (as for every
pause the detector produces), the fluency score lies in `[0, 100]`; and a
zero word count forces a score of 0 even with no pauses. -/
theorem claim_c7_amended (transcript : String) (pauses : List Pause) (n : ℕ)
    (h : ∀ p ∈ pauses, 0 ≤ p.duration) :
    0 ≤ (calculate_metrics transcript pauses n).fluency_score
    ∧ (calculate_metrics transcript pauses n).fluency_score ≤ 100
    ∧ ((py_split_words transcript).length = 0 →
        (calculate_metrics transcript pauses n).fluency_score = 0) := by
  have hS : 0 ≤ (pauses.map (fun p => p.duration)).sum := by
    apply List.sum_nonneg
    intro x hx
    obtain ⟨p, hp, rfl⟩ := List.mem_map.mp hx
    exact h p hp
  rw [calculate_metrics]
  by_cases hw : (py_split_words transcript).length = 0
  · simp [hw, pyRoundInt_zero]
  · have hpos : 0 < (py_split_words transcript).length := Nat.pos_of_ne_zero hw
    simp only [hpos, if_pos, hw]
    set v : ℚ :=
      max 0 (100 - (pauses.map (fun p => p.duration)).sum * 5 -
        (pauses.length : ℚ) * 10) with hv
    have hv0 : (0:ℚ) ≤ v := le_max_left _ _
    have hv100 : v ≤ 100 := by
      rw [hv]
      apply max_le
      · norm_num
      · have hc : (0:ℚ) ≤ (pauses.length : ℚ) := Nat.cast_nonneg _
        nlinarith
    refine ⟨?_, ?_, fun hcon => hcon.elim⟩
    · exact le_pyRoundInt_of_le (by exact_mod_cast hv0)
    · exact pyRoundInt_le_of_le (by exact_mod_cast hv100)

/-- C7 amended witness: transcript `"a b c d e"` with one 4-second pause
scores 70, inside `[0, 100]`. -/
theorem claim_c7_witness :
    (∀ p ∈ [(⟨2, 6, 4, "a", "b", "a"⟩ : Pause)], 0 ≤ p.duration)
    ∧ 0 ≤ (calculate_metrics "a b c d e" [⟨2, 6, 4, "a", "b", "a"⟩] 1).fluency_score
    ∧ (calculate_metrics "a b c d e" [⟨2, 6, 4, "a", "b", "a"⟩] 1).fluency_score ≤ 100 := by
  have hd : ∀ p ∈ [(⟨2, 6, 4, "a", "b", "a"⟩ : Pause)], 0 ≤ p.duration := by
    intro p hp
    obtain rfl := List.mem_singleton.mp hp
    norm_num
  have := claim_c7_amended "a b c d e" [⟨2, 6, 4, "a", "b", "a"⟩] 1 hd
  exact ⟨hd, this.1, this.2.1⟩

/-- C4: on every exit path of both `/analyze` handlers — missing-field
early return, transcription or prompt-generation exceptions, ffmpeg
failure, and success — the `finally` cleanup removes every temp file the
handler created, so the temp-file pool ends exactly as it began. -/
theorem claim_c4 (fs0 fields : List String) (nm wav : String)
    (tr : Except String Transcription) (llm : String → Except String String)
    (ff : ℤ × Bool) (wh : Except String (String × List TimedUnit))
    (cl : String → Except String String)
    (h1 : nm ∉ fs0) (h2 : wav ∉ fs0) :
    (app_analyze fs0 fields nm tr llm).files = fs0
    ∧ (backend_analyze fs0 fields nm wav ff wh cl).files = fs0 := by
  constructor
  · rw [app_analyze]
    by_cases hmem : "audio" ∉ fields
    · rw [if_pos hmem]
    · rw [if_neg hmem]
      show (nm :: fs0).filter (fun x => x ≠ nm) = fs0
      rw [filter_ne_cons_head, filter_ne_of_not_mem h1]
  · rw [backend_analyze]
    by_cases hmem : "video" ∉ fields
    · rw [if_pos hmem]
    · rw [if_neg hmem]
      rcases ff with ⟨rc, cw⟩
      cases cw
      · show ((nm :: fs0).filter (fun x => x ≠ nm)).filter (fun x => x ≠ wav) = fs0
        rw [filter_ne_cons_head, filter_ne_of_not_mem h1, filter_ne_of_not_mem h2]
      · show ((wav :: nm :: fs0).filter (fun x => x ≠ nm)).filter
            (fun x => x ≠ wav) = fs0
        by_cases hwn : wav = nm
        · subst hwn
          rw [filter_ne_cons_head, filter_ne_cons_head, filter_ne_of_not_mem h2,
            filter_ne_of_not_mem h2]
        · rw [filter_ne_cons_of_ne _ hwn, filter_ne_cons_head, filter_ne_cons_head,
            filter_ne_of_not_mem h1, filter_ne_of_not_mem h2]

/-- C4 witness: a concrete failing request (transcription raises) leaves
the initially empty temp pool empty in both handlers. -/
theorem claim_c4_witness :
    "a.webm" ∉ ([] : List String)
    ∧ "a.wav" ∉ ([] : List String)
    ∧ (app_analyze [] ["audio", "video"] "a.webm" (Except.error "boom")
        (fun _ => Except.error "boom")).files = []
    ∧ (backend_analyze [] ["audio", "video"] "a.webm" "a.wav" (0, true)
        (Except.error "boom") (fun _ => Except.error "boom")).files = [] := by
  have h := claim_c4 [] ["audio", "video"] "a.webm" "a.wav"
    (Except.error "boom") (fun _ => Except.error "boom") (0, true)
    (Except.error "boom") (fun _ => Except.error "boom")
    (by simp) (by simp)
  exact ⟨by simp, by simp, h.1, h.2⟩

/-- C5 counterexample: a request with no file fields at all (so lacking the
audio field) gets a 400 from the backend handler whose error body is
`"No video file provided"`, not the claimed `"No audio file provided"`. -/
theorem claim_c5_counterexample :
    (backend_analyze [] [] "t.webm" "t.wav" (0, false) (Except.error "e")
        (fun _ => Except.error "e")).status = 400
    ∧ (backend_analyze [] [] "t.webm" "t.wav" (0, false) (Except.error "e")
        (fun _ => Except.error "e")).error = some "No video file provided"
    ∧ (some "No video file provided" : Option String) ≠
        some "No audio file provided" := by
  refine ⟨rfl, rfl, by simp⟩

/-- C5 amended: the `app.py` handler rejects a request lacking the `audio`
field with a 400, the body `{error: "No audio file provided"}` and no temp
file created; the backend handler keys on the `video` field instead and its
message is `"No video file provided"`, also with a 400 and no temp file. -/
theorem claim_c5_amended (fs0 fields : List String) (nm wav : String)
    (tr : Except String Transcription) (llm : String → Except String String)
    (ff : ℤ × Bool) (wh : Except String (String × List TimedUnit))
    (cl : String → Except String String)
    (h1 : "audio" ∉ fields) (h2 : "video" ∉ fields) :
    app_analyze fs0 fields nm tr llm =
      ⟨400, some "No audio file provided", fs0, 0⟩
    ∧ backend_analyze fs0 fields nm wav ff wh cl =
      ⟨400, some "No video file provided", fs0, 0⟩ := by
  constructor
  · rw [app_analyze, if_pos h1]
  · rw [backend_analyze, if_pos h2]

/-- C5 amended witness: the empty multipart request at a concrete state. -/
theorem claim_c5_witness :
    "audio" ∉ ([] : List String)
    ∧ "video" ∉ ([] : List String)
    ∧ app_analyze ["x"] [] "t.webm" (Except.error "e")
        (fun _ => Except.error "e") = ⟨400, some "No audio file provided", ["x"], 0⟩
    ∧ backend_analyze ["x"] [] "t.webm" "t.wav" (0, false) (Except.error "e")
        (fun _ => Except.error "e") = ⟨400, some "No video file provided", ["x"], 0⟩ := by
  have h := claim_c5_amended ["x"] [] "t.webm" "t.wav" (Except.error "e")
    (fun _ => Except.error "e") (0, false) (Except.error "e")
    (fun _ => Except.error "e") (by simp) (by simp)
  exact ⟨by simp, by simp, h.1, h.2⟩

/-- C6: the external chat call is made for a pause only if its context is
non-empty and at least 10 characters after stripping whitespace; when the
context is empty or strips below 10 characters, the fixed fallback prompt
is attached and the external generator is not called. -/
theorem claim_c6 (llm : String → String) (p : Pause) :
    ((attach_prompt llm p).called_external = true →
      p.context_before ≠ "" ∧ 10 ≤ py_len (py_strip p.context_before))
    ∧ ((p.context_before = "" ∨ py_len (py_strip p.context_before) < 10) →
        attach_prompt llm p = ⟨fallback_prompt, false⟩) := by
  by_cases h1 : p.context_before = ""
  · simp [attach_prompt, h1]
  · by_cases h2 : py_len (py_strip p.context_before) < 10
    · constructor
      · intro hc
        rw [attach_prompt, if_pos h1, generate_prompt, if_pos (Or.inr h2)] at hc
        exact absurd hc (by simp)
      · intro _
        rw [attach_prompt, if_pos h1, generate_prompt, if_pos (Or.inr h2)]
    · constructor
      · intro _
        exact ⟨h1, le_of_not_lt h2⟩
      · intro hc
        rcases hc with hc | hc
        · exact absurd hc h1
        · exact absurd hc h2

/-- C6 witness: the short context `"hi"` (2 characters after stripping)
gets the fallback prompt with no external call. -/
theorem claim_c6_witness :
    (("hi" : String) = "" ∨ py_len (py_strip "hi") < 10)
    ∧ attach_prompt (fun _ => "zzzzzzzzzzzzzzzz") ⟨0, 0, 0, "", "", "hi"⟩ =
        ⟨fallback_prompt, false⟩ :=
  ⟨Or.inr (by decide),
    (claim_c6 (fun _ => "zzzzzzzzzzzzzzzz") ⟨0, 0, 0, "", "", "hi"⟩).2
      (Or.inr (by decide))⟩

/-- C10: a `/quick-prompt` body whose `context` is present but equal to the
empty string behaves exactly like a missing `context`: a 400 with an error
body, and the prompt generator is never invoked. -/
theorem claim_c10 (llm : String → String) :
    quick_prompt llm (some "") = quick_prompt llm none
    ∧ (quick_prompt llm (some "")).status = 400
    ∧ (quick_prompt llm (some "")).error.isSome = true
    ∧ (quick_prompt llm (some "")).called_external = false :=
  ⟨rfl, rfl, rfl, rfl⟩

lemma filter_take_drop {α : Type} (p : α → Bool) (l : List α) (n : ℕ) :
    l.filter p = (l.take n).filter p ++ (l.drop n).filter p := by
  conv_lhs => rw [← List.take_append_drop n l]
  rw [List.filter_append]

/-- Under strictly increasing start times, the `app.py` context extractor
realizes the interval characterization of spec §4.2. -/
lemma context_eq_spec (words : List TimedUnit) (i : ℕ) (w : ℚ)
    (hi : i < words.length)
    (hp : List.Pairwise (fun a b => a.start < b.start) words) :
    get_context_before words i w = context_spec words i w := by
  have hgetD : words.getD i default = words[i] := by
    simp [List.getD_eq_getElem?_getD, List.getElem?_eq_getElem hi]
  have hdropc : words.drop i = words[i] :: words.drop (i + 1) :=
    List.drop_eq_getElem_cons hi
  rcases Nat.eq_zero_or_pos i with h0 | hpos
  · subst h0
    have hL : get_context_before words 0 w = "" := rfl
    rw [hL, context_spec]
    have hnil : words.filter
        (fun u => decide ((words.getD 0 default).start - w ≤ u.start ∧
          u.start < (words.getD 0 default).start)) = [] := by
      rw [List.filter_eq_nil_iff]
      intro u hu
      simp only [decide_eq_true_eq, not_and, not_lt]
      intro _
      rw [hgetD]
      have hcons : words = words[0] :: words.drop 1 := by
        conv_lhs => rw [← List.drop_zero words]
        exact hdropc
      rw [hcons] at hu hp
      rcases List.mem_cons.mp hu with rfl | hmem
      · exact le_refl _
      · exact le_of_lt ((List.pairwise_cons.mp hp).1 u hmem)
    rw [hnil]
    rfl
  · have hne : i ≠ 0 := Nat.pos_iff_ne_zero.mp hpos
    rw [get_context_before, if_neg hne, context_spec]
    show py_join " " (((words.take i).filter
        (fun u => (words.getD i default).start - w ≤ u.start)).map (fun u => u.text))
      = py_join " " ((words.filter
        (fun u => (words.getD i default).start - w ≤ u.start ∧
          u.start < (words.getD i default).start)).map (fun u => u.text))
    have hp2 := hp
    rw [← List.take_append_drop i words] at hp2
    obtain ⟨hpt, hpd, hcross⟩ := List.pairwise_append.mp hp2
    have hsplit := filter_take_drop
      (fun u => decide ((words.getD i default).start - w ≤ u.start ∧
        u.start < (words.getD i default).start)) words i
    have hdropnil : (words.drop i).filter
        (fun u => decide ((words.getD i default).start - w ≤ u.start ∧
          u.start < (words.getD i default).start)) = [] := by
      rw [List.filter_eq_nil_iff]
      intro u hu
      simp only [decide_eq_true_eq, not_and, not_lt]
      intro _
      rw [hgetD]
      rw [hdropc] at hu hpd
      rcases List.mem_cons.mp hu with rfl | hmem
      · exact le_refl _
      · exact le_of_lt ((List.pairwise_cons.mp hpd).1 u hmem)
    have htake : (words.take i).filter
        (fun u => decide ((words.getD i default).start - w ≤ u.start ∧
          u.start < (words.getD i default).start))
        = (words.take i).filter
          (fun u => decide ((words.getD i default).start - w ≤ u.start)) := by
      apply List.filter_congr
      intro u hu
      have hlt : u.start < (words.getD i default).start := by
        rw [hgetD]
        exact hcross u hu words[i] (by rw [hdropc]; exact List.mem_cons_self _ _)
      apply decide_eq_decide.mpr
      constructor
      · exact fun hc => hc.1
      · exact fun hc => ⟨hc, hlt⟩
    rw [hsplit, hdropnil, List.append_nil, htake]

/-- C3 counterexample: the backend extractor does not implement the claimed
interval rule.  On the start-ordered units `[⟨" hi", 0, 5⟩, ⟨"yo", 4, 6⟩]`,
invoked for the pause at index 1 (`pause_time = 4`), the claim's half-open
interval `[4 - 15, 4)` selects unit 0 (text `" hi"`), but the backend's
`end <= pause_time` test excludes the overlapping unit 0 and yields `""`. -/
theorem claim_c3_counterexample :
    backend_get_context_before overlap_units 4 15 = ""
    ∧ context_spec overlap_units 1 15 = " hi"
    ∧ ("" : String) ≠ " hi" := by
  refine ⟨?_, ?_, by decide⟩
  · norm_num [backend_get_context_before, overlap_units, List.filter, py_join]
  · norm_num [context_spec, overlap_units, List.filter, List.getD, py_join]

/-- C3 amended: the `app.py` extractor, on sequences with strictly
increasing start times, returns exactly the texts of the units whose start
lies in `[words[i].start - window, words[i].start)`, joined by single
spaces in original order, and returns `""` at index 0.  (The backend
extractor instead keys on `end <= pause_time` and strips each text.) -/
theorem claim_c3_amended (words : List TimedUnit) (i : ℕ) (w : ℚ)
    (hi : i < words.length)
    (hmono : List.Pairwise (fun a b => a.start < b.start) words) :
    get_context_before words i w = context_spec words i w
    ∧ get_context_before words 0 w = "" :=
  ⟨context_eq_spec words i w hi hmono, rfl⟩

/-- C3 amended witness: the spec §8 example units at index 1. -/
theorem claim_c3_witness :
    1 < ex_units.length
    ∧ List.Pairwise (fun a b => a.start < b.start) ex_units
    ∧ get_context_before ex_units 1 15 = context_spec ex_units 1 15
    ∧ get_context_before ex_units 0 15 = "" := by
  have hlen : 1 < ex_units.length := by norm_num [ex_units]
  have hpw : List.Pairwise (fun a b => a.start < b.start) ex_units := by
    norm_num [ex_units, List.pairwise_cons]
  exact ⟨hlen, hpw, (claim_c3_amended ex_units 1 15 hlen hpw).1,
    (claim_c3_amended ex_units 1 15 hlen hpw).2⟩
